import Mathlib

/-!
Verification of the io_board serial-protocol implementation.

The definitions below are a shallow embedding of `src/io_board/protocol.py`,
`src/io_board/io_board.py`, `src/io_board/deadbolt.py`, `src/io_board/loadcell.py`
and `src/io_board/system.py`.  Bytes are modelled as `Nat` (values 0..255 on the
wire), byte strings as `List Nat`, Python `str` values as `String`/`List Char`,
numeric load-cell values (Python `float`) as `Rat`, and raised exceptions as the
`Except`/`Option` error channel.
-/

namespace IOBoardComm

/-- A wire byte. -/
abbrev Byte := Nat

/-- Start-of-frame marker (`STX = 0x02` in protocol.py). -/
def STX : Byte := 0x02

/-- End-of-frame marker (`ETX = 0x03` in protocol.py). -/
def ETX : Byte := 0x03

/-- The closed command enumeration (`class Command(Enum)` in protocol.py). -/
inductive Command where
  | MC
  | RQ
deriving DecidableEq, Repr

/-- The two ASCII bytes of a command code (the `Enum` value in protocol.py). -/
def Command.value : Command → List Byte
  | .MC => [0x4D, 0x43]
  | .RQ => [0x52, 0x51]

/-- Reverse lookup `Command(bytes)`: `some` on a member of the enumeration,
`none` models the `ValueError` raised by the Python `Enum` constructor. -/
def Command.ofBytes (b : List Byte) : Option Command :=
  if b = Command.MC.value then some Command.MC
  else if b = Command.RQ.value then some Command.RQ
  else none

/-- The closed subcommand enumeration (`class SubCommand(Enum)` in protocol.py). -/
inductive SubCommand where
  | DC
  | ID
  | IW
  | LZ
  | MI
  | ER
  | EZ
  | WP
  | PD
  | RT
deriving DecidableEq, Repr

/-- The two ASCII bytes of a subcommand code. -/
def SubCommand.value : SubCommand → List Byte
  | .DC => [0x44, 0x43]
  | .ID => [0x49, 0x44]
  | .IW => [0x49, 0x57]
  | .LZ => [0x4C, 0x5A]
  | .MI => [0x4D, 0x49]
  | .ER => [0x45, 0x52]
  | .EZ => [0x45, 0x5A]
  | .WP => [0x57, 0x50]
  | .PD => [0x50, 0x44]
  | .RT => [0x52, 0x54]

/-- Reverse lookup `SubCommand(bytes)`: `none` models the `ValueError` raised
by the Python `Enum` constructor on an unknown code. -/
def SubCommand.ofBytes (b : List Byte) : Option SubCommand :=
  if b = SubCommand.DC.value then some SubCommand.DC
  else if b = SubCommand.ID.value then some SubCommand.ID
  else if b = SubCommand.IW.value then some SubCommand.IW
  else if b = SubCommand.LZ.value then some SubCommand.LZ
  else if b = SubCommand.MI.value then some SubCommand.MI
  else if b = SubCommand.ER.value then some SubCommand.ER
  else if b = SubCommand.EZ.value then some SubCommand.EZ
  else if b = SubCommand.WP.value then some SubCommand.WP
  else if b = SubCommand.PD.value then some SubCommand.PD
  else if b = SubCommand.RT.value then some SubCommand.RT
  else none

/-- `calculate_lrc` from protocol.py: XOR of every byte of `data` except the
first one (the STX byte). -/
def calculate_lrc (data : List Byte) : Byte :=
  (data.drop 1).foldl (fun a b => a ^^^ b) 0

/-- XOR-fold of a whole byte list (used to state checksum properties). -/
def xorFold (l : List Byte) : Byte :=
  l.foldl (fun a b => a ^^^ b) 0

/-- The `Frame` dataclass from protocol.py. -/
structure Frame where
  command : Command
  subcommand : SubCommand
  data : List Byte
deriving DecidableEq, Repr

/-- `Frame.build` from protocol.py: STX, command bytes, subcommand bytes,
payload, ETX, then the LRC of everything emitted so far. -/
def Frame.build (f : Frame) : List Byte :=
  let core := STX :: (f.command.value ++ f.subcommand.value ++ f.data ++ [ETX])
  core ++ [calculate_lrc core]

/-- The distinct failure cases of `Frame.parse`.  In the Python source each
constructor corresponds to one `raise` site: the first four and the last two
raise `FrameError` with distinct messages, `lrcMismatch` raises `LRCError`. -/
inductive FrameErr where
  | tooShort
  | badStart
  | etxWindowTooShort
  | etxNotFound
  | lrcMismatch
  | unknownCommand
  | unknownSubcommand
deriving DecidableEq, Repr

/-- Python slice `l[a:b]` for `0 ≤ a ≤ b` (out-of-range slices clamp, never
raise). -/
def pySlice (l : List Byte) (a b : Nat) : List Byte :=
  (l.drop a).take (b - a)

/-- The fallback ETX scan of `Frame.parse`: the Python
`for i in range(len(raw) - 2, 4, -1)` started at `i`, returning the first
index `≥ 5` holding an ETX byte, scanning downward. -/
def findEtxDown (raw : List Byte) : Nat → Option Nat
  | 0 => none
  | i + 1 =>
    if i + 1 < 5 then none
    else if raw.getD (i + 1) 0 = ETX then some (i + 1)
    else findEtxDown raw i

/-- The tail of `Frame.parse` after the ETX position is fixed: command and
subcommand enum lookups, then payload extraction `raw[5:etx_pos]`. -/
def Frame.parseTail (raw : List Byte) (etxPos : Nat) : Except FrameErr (Frame × List Byte) :=
  match Command.ofBytes (pySlice raw 1 3) with
  | none => .error .unknownCommand
  | some cmd =>
    match SubCommand.ofBytes (pySlice raw 3 5) with
    | none => .error .unknownSubcommand
    | some sub =>
      .ok (⟨cmd, sub, pySlice raw 5 etxPos⟩, pySlice raw 5 etxPos)

/-- Continuation of `Frame.parse` once the ETX search has finished: a missing
ETX raises the ETX-not-found `FrameError`; otherwise the optional LRC
validation runs (`actual_lrc` falls back to 0 when the buffer ends at ETX)
and then the command/subcommand/payload tail. -/
def Frame.parseWithEtx (raw : List Byte) (validate_lrc : Bool) :
    Option Nat → Except FrameErr (Frame × List Byte)
  | none => .error .etxNotFound
  | some etxPos =>
    if validate_lrc then
      if calculate_lrc (raw.take (etxPos + 1)) =
          (if etxPos + 1 < raw.length then raw.getD (etxPos + 1) 0 else 0) then
        Frame.parseTail raw etxPos
      else .error .lrcMismatch
    else Frame.parseTail raw etxPos

/-- `Frame.parse` from protocol.py.  Checks, in source order: minimum length,
STX at index 0, the (dead, given the length check) minimum ETX position,
ETX at the expected position `len(raw) - 2` with a backward scan as fallback,
the optional LRC validation, then command/subcommand lookup and payload
extraction. -/
def Frame.parse (raw : List Byte) (validate_lrc : Bool) : Except FrameErr (Frame × List Byte) :=
  if raw.length < 7 then .error .tooShort
  else if raw.getD 0 0 ≠ STX then .error .badStart
  else if raw.length - 2 < 5 then .error .etxWindowTooShort
  else
    Frame.parseWithEtx raw validate_lrc
      (if raw.getD (raw.length - 2) 0 = ETX then some (raw.length - 2)
       else findEtxDown raw (raw.length - 2))

/-- C5: the LRC is independent of the first (STX) byte — two buffers that
differ only in their first byte get the same checksum — and the last byte a
built frame carries is the XOR of all frame bytes from index 1 through the
ETX byte inclusive. -/
theorem lrc_skips_stx_and_build_appends_xor :
    (∀ (x y : Byte) (t : List Byte), calculate_lrc (x :: t) = calculate_lrc (y :: t)) ∧
    (∀ f : Frame, (Frame.build f).getLast? = some (xorFold (((Frame.build f).dropLast).drop 1))) := by
  constructor
  · intro x y t
    simp [calculate_lrc]
  · intro f
    have hb : Frame.build f =
        (STX :: (f.command.value ++ f.subcommand.value ++ f.data ++ [ETX])) ++
          [calculate_lrc (STX :: (f.command.value ++ f.subcommand.value ++ f.data ++ [ETX]))] := rfl
    rw [hb, List.getLast?_concat, List.dropLast_concat]
    rfl

/-- C7 (counterexample): a 1-byte buffer whose first byte is not STX fails
with the too-short error, not the bad-start error. -/
theorem parse_badstart_cex :
    Frame.parse [0x00] false = .error .tooShort ∧ FrameErr.tooShort ≠ FrameErr.badStart := by
  exact ⟨rfl, by decide⟩

/-- C7 (amended): every buffer of length at least 7 whose first byte is not
STX fails with the bad-start frame error, regardless of the rest of the
buffer and of the checksum-validation flag. -/
theorem parse_badStart (raw : List Byte) (v : Bool) (h7 : 7 ≤ raw.length)
    (h0 : raw.getD 0 0 ≠ STX) : Frame.parse raw v = .error .badStart := by
  unfold Frame.parse
  rw [if_neg (by omega), if_pos h0]

/-- Witness for `parse_badStart` at a concrete 7-byte buffer. -/
theorem parse_badStart_witness :
    Frame.parse [0x00, 0x00, 0x00, 0x00, 0x00, 0x03, 0x00] false = .error .badStart :=
  parse_badStart [0x00, 0x00, 0x00, 0x00, 0x00, 0x03, 0x00] false (by decide) (by decide)

/-- Auxiliary roundtrip lemma, stated for an arbitrary frame whose command
and subcommand codes are the concrete byte pairs `[a, b]` and `[c, d]`. -/
theorem parse_build_aux (cmd : Command) (sub : SubCommand) (data : List Byte) (v : Bool)
    (a b c d : Byte) (hc : cmd.value = [a, b]) (hs : sub.value = [c, d])
    (hC : Command.ofBytes [a, b] = some cmd) (hS : SubCommand.ofBytes [c, d] = some sub) :
    Frame.parse (Frame.build ⟨cmd, sub, data⟩) v = .ok (⟨cmd, sub, data⟩, data) := by
  have hB : Frame.build ⟨cmd, sub, data⟩ =
      STX :: a :: b :: c :: d ::
        (data ++ [ETX, calculate_lrc (STX :: a :: b :: c :: d :: (data ++ [ETX]))]) := by
    simp [Frame.build, hc, hs]
  generalize hk : calculate_lrc (STX :: a :: b :: c :: d :: (data ++ [ETX])) = k at hB
  have hsplit1 : STX :: a :: b :: c :: d :: (data ++ [ETX, k]) =
      ([STX, a, b, c, d] ++ data) ++ [ETX, k] := by simp
  have hsplit2 : STX :: a :: b :: c :: d :: (data ++ [ETX, k]) =
      ([STX, a, b, c, d] ++ (data ++ [ETX])) ++ [k] := by simp
  have hlen : (STX :: a :: b :: c :: d :: (data ++ [ETX, k])).length = data.length + 7 := by
    simp only [List.length_cons, List.length_append, List.length_nil]
  have h1 : ¬ (data.length + 7 < 7) := by omega
  have h2 : data.length + 7 - 2 = data.length + 5 := by omega
  have h3 : ¬ (data.length + 5 < 5) := by omega
  have h4 : data.length + 5 + 1 < data.length + 7 := by omega
  have hgetEtx : (STX :: a :: b :: c :: d :: (data ++ [ETX, k])).getD (data.length + 5) 0 = ETX := by
    rw [hsplit1, List.getD_append_right _ _ _ _
      (by simp only [List.length_append, List.length_cons, List.length_nil]; omega)]
    have harith : data.length + 5 - ([STX, a, b, c, d] ++ data).length = 0 := by
      simp only [List.length_append, List.length_cons, List.length_nil]
      omega
    rw [harith]
    rfl
  have hgetk : (STX :: a :: b :: c :: d :: (data ++ [ETX, k])).getD (data.length + 5 + 1) 0 = k := by
    rw [hsplit2, List.getD_append_right _ _ _ _
      (by simp only [List.length_append, List.length_cons, List.length_nil]; omega)]
    have harith : data.length + 5 + 1 - ([STX, a, b, c, d] ++ (data ++ [ETX])).length = 0 := by
      simp only [List.length_append, List.length_cons, List.length_nil]
      omega
    rw [harith]
    rfl
  have htake : (STX :: a :: b :: c :: d :: (data ++ [ETX, k])).take (data.length + 5 + 1) =
      STX :: a :: b :: c :: d :: (data ++ [ETX]) := by
    rw [hsplit2, List.take_left'
      (by simp only [List.length_append, List.length_cons, List.length_nil]; omega)]
    simp
  have hs13 : pySlice (STX :: a :: b :: c :: d :: (data ++ [ETX, k])) 1 3 = [a, b] := by
    simp [pySlice]
  have hs35 : pySlice (STX :: a :: b :: c :: d :: (data ++ [ETX, k])) 3 5 = [c, d] := by
    simp [pySlice]
  have hs5 : pySlice (STX :: a :: b :: c :: d :: (data ++ [ETX, k])) 5 (data.length + 5) = data := by
    simp only [pySlice, List.drop_succ_cons, List.drop_zero, Nat.add_sub_cancel]
    exact List.take_left data [ETX, k]
  rw [hB]
  unfold Frame.parse
  rw [hlen, if_neg h1, if_neg (by simp [List.getD_cons_zero]), h2, if_neg h3,
    if_pos hgetEtx]
  unfold Frame.parseWithEtx
  cases v with
  | false =>
    simp only [Bool.false_eq_true, if_false]
    unfold Frame.parseTail
    rw [hs13, hC, hs35, hS, hs5]
  | true =>
    simp only [if_true]
    rw [hlen, if_pos h4, htake, hk, hgetk, if_pos rfl]
    unfold Frame.parseTail
    rw [hs13, hC, hs35, hS, hs5]

/-- C1: encode/decode round trip — for every frame whose payload contains no
ETX byte, parsing the built bytes succeeds and returns an equal frame with
the original payload, whether or not checksum validation is enabled. -/
theorem parse_build_roundtrip (f : Frame) (v : Bool) (hno : ETX ∉ f.data) :
    Frame.parse (Frame.build f) v = .ok (f, f.data) := by
  obtain ⟨cmd, sub, data⟩ := f
  cases cmd <;> cases sub <;>
    exact parse_build_aux _ _ data v _ _ _ _ rfl rfl rfl rfl

/-- Witness for `parse_build_roundtrip` at a concrete frame with validation
enabled. -/
theorem parse_build_roundtrip_witness :
    Frame.parse (Frame.build ⟨Command.RQ, SubCommand.ID, [0x41, 0x42]⟩) true =
      .ok (⟨Command.RQ, SubCommand.ID, [0x41, 0x42]⟩, [0x41, 0x42]) :=
  parse_build_roundtrip ⟨Command.RQ, SubCommand.ID, [0x41, 0x42]⟩ true (by decide)

/-- The indices of the window `[5, len − 2]` that hold an ETX byte. -/
def etxCandidates (raw : List Byte) : List Nat :=
  (List.range' 5 (raw.length - 6)).filter (fun i => decide (raw.getD i 0 = ETX))

/-- Stated from the claim: the ETX position `Frame.parse` should select — the
expected position `len − 2` when that byte is ETX, otherwise the last
occurrence of the ETX value in the window `[5, len − 2]`. -/
def locateEtxSpec (raw : List Byte) : Option Nat :=
  if raw.getD (raw.length - 2) 0 = ETX then some (raw.length - 2)
  else (etxCandidates raw).getLast?

/-- The backward scan returns the last index of the window `[5, n + 4]`
holding an ETX byte. -/
theorem findEtxDown_eq (raw : List Byte) :
    ∀ n : Nat, findEtxDown raw (n + 4) =
      ((List.range' 5 n).filter (fun i => decide (raw.getD i 0 = ETX))).getLast? := by
  intro n
  induction n with
  | zero => rfl
  | succ m ih =>
    have hstep : findEtxDown raw (m + 5) =
        if raw.getD (m + 5) 0 = ETX then some (m + 5) else findEtxDown raw (m + 4) := by
      conv_lhs => rw [show m + 5 = m + 4 + 1 from rfl]
      rw [findEtxDown]
      rw [if_neg (by omega)]
    have h5m : 5 + m = m + 5 := by omega
    rw [show m + 1 + 4 = m + 5 from rfl, hstep, List.range'_1_concat, List.filter_append, h5m]
    by_cases h : raw.getD (m + 5) 0 = ETX
    · rw [if_pos h]
      have hone : [m + 5].filter (fun i => decide (raw.getD i 0 = ETX)) = [m + 5] := by
        rw [List.filter_cons, if_pos (by simpa using h)]
        rfl
      rw [hone, List.getLast?_concat]
    · rw [if_neg h, ih]
      have hnone : [m + 5].filter (fun i => decide (raw.getD i 0 = ETX)) = [] := by
        rw [List.filter_cons, if_neg (by simpa using h)]
        rfl
      rw [hnone, List.append_nil]

/-- On buffers of length at least 7, the ETX position computed inside
`Frame.parse` agrees with `locateEtxSpec`. -/
theorem parse_etx_eq_spec (raw : List Byte) (h7 : 7 ≤ raw.length) :
    (if raw.getD (raw.length - 2) 0 = ETX then some (raw.length - 2)
     else findEtxDown raw (raw.length - 2)) = locateEtxSpec raw := by
  unfold locateEtxSpec
  by_cases h : raw.getD (raw.length - 2) 0 = ETX
  · rw [if_pos h, if_pos h]
  · rw [if_neg h, if_neg h]
    have harith : raw.length - 2 = (raw.length - 6) + 4 := by omega
    rw [harith, findEtxDown_eq]
    rfl

/-- The command/subcommand/payload tail never reports the ETX-not-found
error. -/
theorem parseTail_ne_etxNotFound (raw : List Byte) (j : Nat) :
    Frame.parseTail raw j ≠ .error .etxNotFound := by
  unfold Frame.parseTail
  split
  · simp
  · split
    · simp
    · simp

/-- Once an ETX position is fixed, parsing never reports the
ETX-not-found error. -/
theorem parseWithEtx_some_ne_etxNotFound (raw : List Byte) (v : Bool) (j : Nat) :
    Frame.parseWithEtx raw v (some j) ≠ .error .etxNotFound := by
  simp only [Frame.parseWithEtx]
  split_ifs <;> first
    | exact parseTail_ne_etxNotFound raw j
    | simp

/-- A successful command/subcommand/payload tail returns exactly `raw[5:j]`
as payload. -/
theorem parseTail_ok_payload (raw : List Byte) (j : Nat) (fr : Frame) (pl : List Byte)
    (h : Frame.parseTail raw j = .ok (fr, pl)) : pl = pySlice raw 5 j := by
  unfold Frame.parseTail at h
  split at h
  · simp at h
  · split at h
    · simp at h
    · simp only [Except.ok.injEq, Prod.mk.injEq] at h
      exact h.2.symm

/-- Once an ETX position `j` is fixed, a successful parse returns exactly
`raw[5:j]` as payload. -/
theorem parseWithEtx_ok_payload (raw : List Byte) (v : Bool) (j : Nat) (fr : Frame)
    (pl : List Byte) (h : Frame.parseWithEtx raw v (some j) = .ok (fr, pl)) :
    pl = pySlice raw 5 j := by
  simp only [Frame.parseWithEtx] at h
  split_ifs at h <;> first
    | exact parseTail_ok_payload raw j fr pl h
    | simp at h

/-- C4: for every buffer of length at least 7 that starts with STX,
`Frame.parse` fails with the ETX-not-found error exactly when neither the
expected position `len − 2` nor the window `[5, len − 2]` holds an ETX byte;
and whenever it succeeds with ETX located at `i` (expected position first,
otherwise the last ETX occurrence of the window), the returned payload is
exactly `raw[5:i]`. -/
theorem parse_etx_location (raw : List Byte) (v : Bool) (h7 : 7 ≤ raw.length)
    (h0 : raw.getD 0 0 = STX) :
    (Frame.parse raw v = .error .etxNotFound ↔ locateEtxSpec raw = none) ∧
    (∀ i fr pl, locateEtxSpec raw = some i → Frame.parse raw v = .ok (fr, pl) →
      pl = pySlice raw 5 i) := by
  unfold Frame.parse
  rw [if_neg (by omega), if_neg (not_not_intro h0), if_neg (by omega),
    parse_etx_eq_spec raw h7]
  cases hloc : locateEtxSpec raw with
  | none =>
    constructor
    · simp [Frame.parseWithEtx]
    · intro i fr pl hi
      simp at hi
  | some j =>
    constructor
    · constructor
      · intro hp
        exact absurd hp (parseWithEtx_some_ne_etxNotFound raw v j)
      · intro hn
        simp at hn
    · intro i fr pl hi hp
      have hij : j = i := by
        simpa using hi
      rw [← hij]
      exact parseWithEtx_ok_payload raw v j fr pl hp

/-- Witness for `parse_etx_location`: a buffer whose last-but-one byte is not
ETX, so the backward scan locates the ETX at index 5 and the payload is the
empty slice `raw[5:5]`. -/
theorem parse_etx_location_witness :
    ([] : List Byte) =
      pySlice [0x02, 0x52, 0x51, 0x49, 0x44, 0x03, 0x00, 0x00] 5 5 :=
  (parse_etx_location [0x02, 0x52, 0x51, 0x49, 0x44, 0x03, 0x00, 0x00] false
      (by decide) (by decide)).2 5 ⟨Command.RQ, SubCommand.ID, []⟩ []
    rfl rfl

/-- The exceptions `IOBoard.send_command` catches per attempt: a receive
timeout (`TimeoutError`), a channel I/O failure (`CommunicationError`), or a
frame-parse failure (`FrameError`/`LRCError`, both `IOBoardError`). -/
inductive IOErr where
  | timeout
  | commError
  | frameErr (e : FrameErr)
deriving DecidableEq, Repr

/-- Observable outcome of one `IOBoard.send_command` call: the returned
`(success, data)` pair together with the number of sends performed, the
number of inter-attempt sleeps, and the `last_error` variable as logged at
exhaustion. -/
structure SendResult where
  success : Bool
  data : List Byte
  sends : Nat
  sleeps : Nat
  lastError : Option IOErr
deriving DecidableEq, Repr

/-- The retry loop of `IOBoard.send_command` (io_board.py).  `channel n`
models the send+receive pair of attempt `n`: either the received bytes or
the exception the channel raised.  Each loop iteration performs one send,
receives, parses the response, and on any caught failure records it in
`last_error` and sleeps the retry delay unless this was the final attempt. -/
def sendCommandLoop (retryCount : Nat) (validate : Bool)
    (channel : Nat → Except IOErr (List Byte)) (attempt sends sleeps : Nat)
    (lastError : Option IOErr) : SendResult :=
  if h : attempt < retryCount then
    match channel attempt with
    | .error e =>
      sendCommandLoop retryCount validate channel (attempt + 1) (sends + 1)
        (if attempt < retryCount - 1 then sleeps + 1 else sleeps) (some e)
    | .ok rx =>
      match Frame.parse rx validate with
      | .ok (_, respData) =>
        { success := true, data := respData, sends := sends + 1, sleeps := sleeps,
          lastError := lastError }
      | .error fe =>
        sendCommandLoop retryCount validate channel (attempt + 1) (sends + 1)
          (if attempt < retryCount - 1 then sleeps + 1 else sleeps) (some (.frameErr fe))
  else
    { success := false, data := [], sends := sends, sleeps := sleeps, lastError := lastError }
termination_by retryCount - attempt
decreasing_by all_goals omega

/-- `IOBoard.send_command`: raises `CommunicationError` when not connected
(the `.error` of the outer `Except`), otherwise runs the retry loop; every
exception inside the loop is caught, so a connected call always returns
normally. -/
def send_command (connected : Bool) (retryCount : Nat) (validate : Bool)
    (channel : Nat → Except IOErr (List Byte)) : Except IOErr SendResult :=
  if ¬connected then .error .commError
  else .ok (sendCommandLoop retryCount validate channel 0 0 0 none)

/-- On a channel that times out on every attempt, the retry loop runs its
remaining `k` attempts, each performing one send, sleeping between
consecutive attempts only, and records the timeout as last error. -/
theorem sendCommandLoop_timeout (rc : Nat) (v : Bool)
    (channel : Nat → Except IOErr (List Byte))
    (hch : ∀ n, channel n = .error .timeout) :
    ∀ k attempt sends sleeps le, attempt + k = rc →
      sendCommandLoop rc v channel attempt sends sleeps le =
        { success := false, data := [], sends := sends + k, sleeps := sleeps + (k - 1),
          lastError := if k = 0 then le else some .timeout } := by
  intro k
  induction k with
  | zero =>
    intro attempt sends sleeps le hk
    unfold sendCommandLoop
    rw [dif_neg (by omega)]
    simp
  | succ m ih =>
    intro attempt sends sleeps le hk
    unfold sendCommandLoop
    rw [dif_pos (by omega)]
    simp only [hch attempt]
    have hrec := ih (attempt + 1) (sends + 1)
      (if attempt < rc - 1 then sleeps + 1 else sleeps) (some .timeout) (by omega)
    rw [hrec]
    by_cases hlast : attempt < rc - 1
    · rw [if_pos hlast]
      have hm : ¬ (m = 0) := by omega
      simp only [hm, if_false]
      have h1 : sends + 1 + m = sends + (m + 1) := by omega
      have h2 : sleeps + 1 + (m - 1) = sleeps + (m + 1 - 1) := by omega
      rw [h1, h2]
      simp
    · rw [if_neg hlast]
      have hm : m = 0 := by omega
      subst hm
      simp

/-- C2: with `retryCount = 3` and a connected channel whose receive always
times out, `send_command` returns normally (no exception escapes), performs
exactly 3 send attempts, sleeps exactly twice (between consecutive attempts,
not after the last), and returns the aggregate failure pair of False and empty bytes
carrying the timeout as the last error seen. -/
theorem send_command_always_timeout (v : Bool)
    (channel : Nat → Except IOErr (List Byte))
    (hch : ∀ n, channel n = .error .timeout) :
    send_command true 3 v channel =
      .ok { success := false, data := [], sends := 3, sleeps := 2,
            lastError := some .timeout } := by
  unfold send_command
  rw [if_neg (by simp)]
  rw [sendCommandLoop_timeout 3 v channel hch 3 0 0 0 none rfl]
  rfl

/-- Witness for `send_command_always_timeout` on the concrete
always-timeout channel. -/
theorem send_command_always_timeout_witness :
    send_command true 3 false (fun _ => .error .timeout) =
      .ok { success := false, data := [], sends := 3, sleeps := 2,
            lastError := some .timeout } :=
  send_command_always_timeout false (fun _ => .error .timeout) (fun _ => rfl)

/-- The whitespace characters stripped by Python `str.strip()` on ASCII
text: space, tab, newline, carriage return, vertical tab, form feed. -/
def isPySpace (c : Char) : Bool :=
  c == ' ' || c == '\t' || c == '\n' || c == '\r' || c == Char.ofNat 11 || c == Char.ofNat 12
    || c == Char.ofNat 28 || c == Char.ofNat 29 || c == Char.ofNat 30 || c == Char.ofNat 31

/-- Python `str.strip()`: removes leading and trailing whitespace. -/
def pyStripList (cs : List Char) : List Char :=
  ((cs.dropWhile isPySpace).reverse.dropWhile isPySpace).reverse

/-- Python `str.strip()` producing a `String`. -/
def pyStrip (cs : List Char) : String :=
  ⟨pyStripList cs⟩

/-- Python `str.rstrip()`: removes trailing whitespace only (stated from the
claim wording, for comparison with the code `strip()`). -/
def pyRStrip (cs : List Char) : String :=
  ⟨(cs.reverse.dropWhile isPySpace).reverse⟩

/-- Python `bytes.decode` with the ascii codec and the replace error handler: bytes above 127 become
the U+FFFD replacement character; never raises. -/
def decodeAsciiReplace (bs : List Byte) : List Char :=
  bs.map (fun b => if b < 128 then Char.ofNat b else Char.ofNat 0xFFFD)

/-- Python strict-ascii `bytes.decode`: `none` models the `UnicodeDecodeError`
raised when any byte is above 127. -/
def decodeAsciiStrict (bs : List Byte) : Option (List Char) :=
  if bs.all (fun b => decide (b < 128)) then some (bs.map Char.ofNat) else none

/-- Python ascii `str.encode`: `none` models the `UnicodeEncodeError`
raised when any character is above 127. -/
def pyEncodeAscii (s : List Char) : Option (List Byte) :=
  if s.all (fun c => decide (c.toNat < 128)) then some (s.map Char.toNat) else none

/-- The ASCII bytes of a string (used to write concrete payloads). -/
def asciiBytes (s : String) : List Byte :=
  s.data.map Char.toNat

/-- Value of a digit string (most significant first). -/
def digitsVal (cs : List Char) : Nat :=
  cs.foldl (fun acc c => acc * 10 + (c.toNat - 48)) 0

/-- Unsigned part of Python `float(...)` restricted to decimal numerals:
digits with an optional single fraction part (`"123"`, `"123."`, `".5"`,
`"12.34"`); anything else is `none`. -/
def parsePyFloatUnsigned (cs : List Char) : Option Rat :=
  let intPart := cs.takeWhile (fun c => c ≠ '.')
  let rest := cs.dropWhile (fun c => c ≠ '.')
  match rest with
  | [] =>
    if intPart ≠ [] && intPart.all Char.isDigit then some ((digitsVal intPart : Rat))
    else none
  | _ :: frac =>
    if (intPart ≠ [] || frac ≠ []) && intPart.all Char.isDigit && frac.all Char.isDigit then
      some ((digitsVal intPart : Rat) + (digitsVal frac : Rat) / ((10 : Rat) ^ frac.length))
    else none

/-- Python `float` on the device fixed-width signed decimal
fields (loadcell.py parses with a `ValueError` fallback to 0.0): optional
sign then a decimal numeral; the numeric value is modelled as `Rat`. -/
def parsePyFloat (cs : List Char) : Option Rat :=
  match cs with
  | '+' :: rest => parsePyFloatUnsigned rest
  | '-' :: rest => (parsePyFloatUnsigned rest).map (fun q => -q)
  | _ => parsePyFloatUnsigned cs

/-- The `LoadCellReading` dataclass of loadcell.py. -/
structure LoadCellReading where
  channel : Nat
  value : Rat
  raw : String
deriving DecidableEq, Repr

/-- One iteration of the channel loop in `LoadCell.read_all`: slice the
6-byte field `data[6*ch : 6*ch + 6]`, decode with replacement, strip; an
empty result gives the default reading, otherwise `float()` with the
`ValueError` fallback to 0.0.  (The `except IndexError/UnicodeDecodeError`
arm of the source is unreachable: slicing and replacement-mode decoding
never raise.) -/
def parseChannel (data : List Byte) (ch : Nat) : LoadCellReading :=
  match pyStripList (decodeAsciiReplace (pySlice data (ch * 6) (ch * 6 + 6))) with
  | [] => { channel := ch + 1, value := 0, raw := "" }
  | c :: rest =>
    { channel := ch + 1, value := (parsePyFloat (c :: rest)).getD 0, raw := ⟨c :: rest⟩ }

/-- `LoadCell.read_all` as a function of the dispatcher outcome: an empty
list on dispatch failure, otherwise the ten per-channel readings. -/
def read_all (success : Bool) (data : List Byte) : List LoadCellReading :=
  if success then (List.range 10).map (parseChannel data) else []

/-- A channel reading always carries channel number `ch + 1`. -/
theorem parseChannel_channel (data : List Byte) (ch : Nat) :
    (parseChannel data ch).channel = ch + 1 := by
  unfold parseChannel
  split <;> rfl

/-- C3 (counterexample): when the dispatch fails, `read_all` returns the
empty list, not 10 readings. -/
theorem read_all_failure_cex :
    read_all false [] = [] ∧ (read_all false []).length ≠ 10 := by
  exact ⟨rfl, by decide⟩

/-- C3 (amended): every `read_all` call whose dispatch succeeds returns
exactly 10 readings, the i-th being the decode of the i-th 6-byte field
with channel number `i + 1`; every channel whose field lies entirely beyond
the available data is reported as value 0.0 with raw `""` (so a 30-byte
payload yields the first 5 channels parsed and the last 5 defaulted). -/
theorem read_all_success_shape (data : List Byte) :
    (read_all true data).length = 10 ∧
    (∀ i, i < 10 →
      (read_all true data).getD i { channel := 0, value := 0, raw := "" } =
        parseChannel data i) ∧
    (∀ i, i < 10 →
      ((read_all true data).getD i { channel := 0, value := 0, raw := "" }).channel = i + 1) ∧
    (∀ i, i < 10 → data.length ≤ 6 * i →
      (read_all true data).getD i { channel := 0, value := 0, raw := "" } =
        { channel := i + 1, value := 0, raw := "" }) := by
  have hlen : (read_all true data).length = 10 := by simp [read_all]
  have hmap : ∀ i, i < 10 →
      (read_all true data).getD i { channel := 0, value := 0, raw := "" } =
        parseChannel data i := by
    intro i hi
    rw [List.getD_eq_getElem _ _ (by rw [hlen]; omega)]
    simp [read_all]
  refine ⟨hlen, hmap, fun i hi => by rw [hmap i hi, parseChannel_channel],
    fun i hi hbeyond => ?_⟩
  rw [hmap i hi]
  have hsl : pySlice data (i * 6) (i * 6 + 6) = [] := by
    unfold pySlice
    rw [List.drop_eq_nil_of_le (by omega), List.take_nil]
  unfold parseChannel
  rw [hsl]
  rfl

/-- Witness for `read_all_success_shape` on a 30-byte all-spaces payload:
channel 8 (index 7) lies beyond the data and is defaulted. -/
theorem read_all_success_shape_witness :
    (read_all true (List.replicate 30 0x20)).getD 7 { channel := 0, value := 0, raw := "" } =
      { channel := 8, value := 0, raw := "" } :=
  (read_all_success_shape (List.replicate 30 0x20)).2.2.2 7 (by decide) (by decide)

/-- `DoorStatus` from deadbolt.py. -/
inductive DoorStatus where
  | opened
  | closed
  | unknown
deriving DecidableEq, Repr

/-- `LockStatus` from deadbolt.py. -/
inductive LockStatus where
  | locked
  | unlocked
  | unknown
deriving DecidableEq, Repr

/-- `DOOR_STATUS_MAP.get(byte, UNKNOWN)` from deadbolt.py. -/
def doorStatusMap (b : Byte) : DoorStatus :=
  if b = 0x4F then .opened else if b = 0x43 then .closed else .unknown

/-- `LOCK_STATUS_MAP.get(byte, UNKNOWN)` from deadbolt.py. -/
def lockStatusMap (b : Byte) : LockStatus :=
  if b = 0x4C then .locked else if b = 0x55 then .unlocked else .unknown

/-- The domain decoders raise `ResponseError` on response-processing
failures; it is the only exception they document. -/
inductive RespErr where
  | responseError
deriving DecidableEq, Repr

/-- `DeadBolt.get_status` as a function of the dispatcher outcome: failure
and short payloads yield `(UNKNOWN, UNKNOWN)`; otherwise payload bytes 0
and 6 are looked up in the status maps.  Indexing is modelled through
`getElem?`; an out-of-range index would take the `except IndexError` arm
raising `ResponseError`. -/
def get_status (success : Bool) (data : List Byte) :
    Except RespErr (DoorStatus × LockStatus) :=
  if ¬success then .ok (.unknown, .unknown)
  else if data.length < 7 then .ok (.unknown, .unknown)
  else
    match data[0]?, data[6]? with
    | some db, some lb => .ok (doorStatusMap db, lockStatusMap lb)
    | _, _ => .error .responseError

/-- C6: `get_status` maps payload byte 0 through the door map and byte 6
through the lock map: `"O     U     "` gives (Opened, Unlocked),
`"C     L     "` gives (Closed, Locked), any payload shorter than 7 bytes
gives (Unknown, Unknown) without raising. -/
theorem get_status_decode :
    get_status true (asciiBytes "O     U     ") = .ok (.opened, .unlocked) ∧
    get_status true (asciiBytes "C     L     ") = .ok (.closed, .locked) ∧
    (∀ data : List Byte, data.length < 7 →
      get_status true data = .ok (.unknown, .unknown)) ∧
    (∀ data : List Byte, 7 ≤ data.length →
      get_status true data =
        .ok (doorStatusMap (data.getD 0 0), lockStatusMap (data.getD 6 0))) := by
  refine ⟨rfl, rfl, fun data h => ?_, fun data h => ?_⟩
  · unfold get_status
    rw [if_neg (by simp), if_pos h]
  · unfold get_status
    rw [if_neg (by simp), if_neg (by omega)]
    have h0 : data[0]? = some (data.getD 0 0) := by
      rw [List.getElem?_eq_getElem (by omega), List.getD_eq_getElem _ _ (by omega)]
    have h6 : data[6]? = some (data.getD 6 0) := by
      rw [List.getElem?_eq_getElem (by omega), List.getD_eq_getElem _ _ (by omega)]
    rw [h0, h6]

/-- Witness for `get_status_decode` on a concrete 7-byte payload. -/
theorem get_status_decode_witness :
    get_status true [0x4F, 0x20, 0x20, 0x20, 0x20, 0x20, 0x4C] =
      .ok (doorStatusMap ([0x4F, 0x20, 0x20, 0x20, 0x20, 0x20, 0x4C].getD 0 0),
           lockStatusMap ([0x4F, 0x20, 0x20, 0x20, 0x20, 0x20, 0x4C].getD 6 0)) :=
  get_status_decode.2.2.2 [0x4F, 0x20, 0x20, 0x20, 0x20, 0x20, 0x4C] (by decide)

/-- C10: `get_status` is total over every dispatcher outcome — for a payload
of length at least 7 the byte indexing cannot fail, so the `ResponseError`
branch is unreachable and the result is always an `(door, lock)` pair. -/
theorem get_status_never_raises (success : Bool) (data : List Byte) :
    ∃ st : DoorStatus × LockStatus, get_status success data = .ok st := by
  unfold get_status
  cases success with
  | false => exact ⟨(.unknown, .unknown), by rw [if_pos (by simp)]⟩
  | true =>
    rw [if_neg (by simp)]
    by_cases hl : data.length < 7
    · exact ⟨(.unknown, .unknown), by rw [if_pos hl]⟩
    · refine ⟨(doorStatusMap (data.getD 0 0), lockStatusMap (data.getD 6 0)), ?_⟩
      rw [if_neg hl]
      have h0 : data[0]? = some (data.getD 0 0) := by
        rw [List.getElem?_eq_getElem (by omega), List.getD_eq_getElem _ _ (by omega)]
      have h6 : data[6]? = some (data.getD 6 0) := by
        rw [List.getElem?_eq_getElem (by omega), List.getD_eq_getElem _ _ (by omega)]
      rw [h0, h6]

/-- The `SystemInfo` dataclass of system.py. -/
structure SystemInfo where
  production_number : String
  raw : List Byte
deriving DecidableEq, Repr

/-- `SystemManager.get_info` as a function of the dispatcher outcome:
failure yields the empty info; otherwise the first 11 payload bytes are
decoded as ASCII (a `UnicodeDecodeError` takes the `except` arm raising
`ResponseError`) and stripped with Python `str.strip()`. -/
def get_info (success : Bool) (data : List Byte) : Except RespErr SystemInfo :=
  if ¬success then .ok { production_number := "", raw := [] }
  else
    match decodeAsciiStrict (data.take 11) with
    | none => .error .responseError
    | some cs => .ok { production_number := pyStrip cs, raw := data }

/-- C8 (counterexample): on the ASCII payload `" A         "` the code
returns production number `"A"` — `strip()` removes the leading blank —
while the claimed right-trim of the first 11 bytes is `" A"`. -/
theorem get_info_trim_cex :
    get_info true (asciiBytes " A         ") =
      .ok { production_number := "A", raw := asciiBytes " A         " } ∧
    pyRStrip (((asciiBytes " A         ").take 11).map Char.ofNat) = " A" ∧
    ("A" : String) ≠ " A" := by
  refine ⟨rfl, rfl, by decide⟩

/-- C8 (amended): on a successful dispatch whose first 11 payload bytes are
ASCII, `get_info` returns the production number obtained by decoding those
bytes and trimming whitespace on both sides (Python `strip()`), and the raw
field is the full payload. -/
theorem get_info_production (data : List Byte)
    (h : (data.take 11).all (fun b => decide (b < 128)) = true) :
    get_info true data =
      .ok { production_number := pyStrip ((data.take 11).map Char.ofNat), raw := data } := by
  unfold get_info
  rw [if_neg (by simp)]
  unfold decodeAsciiStrict
  rw [if_pos h]

/-- Witness for `get_info_production` on a padded production number. -/
theorem get_info_production_witness :
    get_info true (asciiBytes "PROD123    ") =
      .ok { production_number := pyStrip (((asciiBytes "PROD123    ").take 11).map Char.ofNat),
            raw := asciiBytes "PROD123    " } :=
  get_info_production (asciiBytes "PROD123    ") (by decide)

/-- One dispatcher invocation as observed at the `IOBoard.send_command`
boundary. -/
structure DispatchCall where
  command : Command
  subcommand : SubCommand
  payload : List Byte
deriving DecidableEq, Repr

/-- `SystemManager.set_production_number`: empty input returns `False`
before any I/O; ascii `encode` failure (non-ASCII input) returns `False`
before any I/O; otherwise exactly one `MC/WP` dispatch with the encoded
payload, whose success flag is returned.  The first component lists the
dispatcher invocations performed. -/
def set_production_number (number : List Char) (dispatchResult : Bool) :
    List DispatchCall × Bool :=
  if number = [] then ([], false)
  else
    match pyEncodeAscii number with
    | none => ([], false)
    | some data => ([{ command := .MC, subcommand := .WP, payload := data }], dispatchResult)

/-- C9: `set_production_number` rejects an empty or non-ASCII string with
zero dispatcher invocations; on a non-empty ASCII string it performs
exactly one `MC/WP` dispatch whose payload is the ASCII encoding. -/
theorem set_production_number_validation (number : List Char) (dr : Bool) :
    (number = [] → set_production_number number dr = ([], false)) ∧
    ((∃ c ∈ number, 128 ≤ c.toNat) → set_production_number number dr = ([], false)) ∧
    (number ≠ [] → (∀ c ∈ number, c.toNat < 128) →
      set_production_number number dr =
        ([{ command := .MC, subcommand := .WP, payload := number.map Char.toNat }], dr)) := by
  refine ⟨fun h => ?_, fun hex => ?_, fun hn hall => ?_⟩
  · unfold set_production_number
    rw [if_pos h]
  · unfold set_production_number
    by_cases hn : number = []
    · rw [if_pos hn]
    · rw [if_neg hn]
      unfold pyEncodeAscii
      obtain ⟨c, hc, h128⟩ := hex
      rw [if_neg ?_]
      intro hcontra
      have := List.all_eq_true.mp hcontra c hc
      simp at this
      omega
  · unfold set_production_number
    rw [if_neg hn]
    unfold pyEncodeAscii
    rw [if_pos (List.all_eq_true.mpr (fun c hc => by simp [hall c hc]))]

/-- Witness for `set_production_number_validation` on the ASCII string
`"AB"`. -/
theorem set_production_number_validation_witness :
    set_production_number [Char.ofNat 0x41, Char.ofNat 0x42] true =
      ([{ command := .MC, subcommand := .WP,
          payload := [Char.ofNat 0x41, Char.ofNat 0x42].map Char.toNat }], true) :=
  (set_production_number_validation [Char.ofNat 0x41, Char.ofNat 0x42] true).2.2
    (by decide) (by decide)

end IOBoardComm
